import Mathlib

/-!
Shallow embedding of the session lifecycle manager of
rhasspy-asr-kaldi-hermes (src/rhasspyasr_kaldi_hermes/__init__.py).

The dispatch-path handlers (start_listening, stop_listening,
handle_audio_frame, finish_session) are modelled as pure state
transformers over an explicit server state.  The transcriber worker
thread (transcribe_proc) is modelled as a separate state transformer on
the per-worker record; points where the dispatch path observably
interleaves with the thread (the bounded wait in finish_session, the
construction of the engine) take the thread behaviour as an explicit
oracle parameter, so every real interleaving corresponds to a choice of
oracle values.  External collaborators (silence recorder, WAV
conversion) are modelled at their interface boundary as described in
their doc comments.
-/

/-- Raw audio bytes are modelled as lists of naturals. -/
abbrev Bytes := List Nat

/-- One per-word token of an engine transcription
(rhasspyasr.Transcription.tokens entries): word text, likelihood and
start/end time.  The floating point likelihood and times are carried
through unchanged by the code, so an integer stand-in is used. -/
structure TranscriptionToken where
  token : String
  likelihood : Int
  start_time : Int
  end_time : Int
deriving DecidableEq

/-- The engine transcription record (rhasspyasr.Transcription): text,
likelihood, decode seconds, wav seconds and optional per-word tokens
(an empty list models the falsy empty-or-None tokens field). -/
structure Transcription where
  text : String
  likelihood : Int
  transcribe_seconds : Int
  wav_seconds : Int
  tokens : List TranscriptionToken := []
deriving DecidableEq

/-- The start-listening control message (rhasspyhermes AsrStartListening),
restricted to the fields the handlers read. -/
structure AsrStartListening where
  site_id : String
  session_id : Option String
  lang : Option String := none
  stop_on_silence : Bool := true
  send_audio_captured : Bool := false
deriving DecidableEq

/-- The stop-listening control message (rhasspyhermes AsrStopListening). -/
structure AsrStopListening where
  site_id : String
  session_id : Option String
deriving DecidableEq

/-- An emitted ASR token (rhasspyhermes.nlu.AsrToken): word value,
confidence, character range and time span. -/
structure AsrToken where
  value : String
  confidence : Int
  range_start : Nat
  range_end : Nat
  time_start : Int
  time_end : Int
deriving DecidableEq

/-- Messages the handlers emit (yield) to the transport.  Error and
context strings of AsrError are elided; only the scoping site and
session identifiers are kept. -/
inductive OutMsg where
  | asrRecordingFinished (site_id : String) (session_id : Option String)
  | asrTextCaptured (text : String) (likelihood : Int) (seconds : Int)
      (site_id : String) (session_id : Option String)
      (asr_tokens : Option (List (List AsrToken))) (lang : Option String)
  | asrAudioCaptured (wav_bytes : Bytes) (site_id : String)
      (session_id : Option String)
  | asrError (site_id : String) (session_id : Option String)
deriving DecidableEq

/-- Modelled from the spec: the external silence detector collaborator
(rhasspysilence.VoiceCommandRecorder), given only at its interface
boundary: start(), process_chunk(bytes) reporting end of utterance,
stop() returning the trimmed audio.  Its observable behaviour is a plan
fixed at creation: detect_plan says whether the n-th chunk since
creation reports end of utterance, raise_plan whether it raises, and
trimmed is what stop() returns. -/
structure Recorder where
  detect_plan : List Bool := []
  raise_plan : List Bool := []
  trimmed : Bytes := []
  started : Bool := false
  chunks : List Bytes := []
deriving DecidableEq

/-- Recorder.start(): begin silence detection. -/
def Recorder.start (r : Recorder) : Recorder :=
  { r with started := true }

/-- Recorder.process_chunk(bytes): either raises (error) or returns the
updated recorder and whether a voice command end was detected. -/
def Recorder.process_chunk (r : Recorder) (b : Bytes) :
    Except Unit (Recorder × Bool) :=
  if r.raise_plan.headD false then Except.error () else
    Except.ok
      ({ r with chunks := r.chunks ++ [b],
                detect_plan := r.detect_plan.tail,
                raise_plan := r.raise_plan.tail },
       r.detect_plan.headD false)

/-- Recorder.stop(): end detection and return the trimmed audio. -/
def Recorder.stop (r : Recorder) : Recorder × Bytes :=
  ({ r with started := false }, r.trimmed)

/-- Per-worker record: direct translation of the TranscriberInfo
dataclass.  transcriber is the owned engine handle (presence only),
frame_queue the queue of optional byte buffers (none is the
end-of-utterance sentinel), ready_event and result_event the two
single-slot signals, thread whether an execution thread was launched. -/
structure TranscriberInfo where
  transcriber : Option Unit := none
  recorder : Option Recorder := none
  frame_queue : List (Option Bytes) := []
  ready_event : Bool := false
  result : Option Transcription := none
  result_event : Bool := false
  result_sent : Bool := false
  start_listening : Option AsrStartListening := none
  thread : Bool := false
  audio_buffer : Option Bytes := none
  reuse : Bool := true
deriving DecidableEq

/-- Immutable server configuration read by the handlers: the
reuse_transcribers flag and default language of AsrHermesMqtt. -/
structure Config where
  reuse_transcribers : Bool := false
  lang : Option String := none
deriving DecidableEq

/-- Mutable server state: the session registry (a python dict keyed by
the optional session id, modelled as an insertion-ordered association
list with unique keys) and the free transcriber pool. -/
structure ServerState where
  sessions : List (Option String × TranscriberInfo) := []
  free_transcribers : List TranscriberInfo := []
deriving DecidableEq

/-- Lookup in the session dict: value of the first entry with the key. -/
def dictGet : List (Option String × TranscriberInfo) → Option String →
    Option TranscriberInfo
  | [], _ => none
  | kv :: rest, k => if kv.1 = k then some kv.2 else dictGet rest k

/-- Assignment in the session dict: python dict semantics, replacing in
place when the key is present and appending otherwise. -/
def dictSet : List (Option String × TranscriberInfo) → Option String →
    TranscriberInfo → List (Option String × TranscriberInfo)
  | [], k, v => [(k, v)]
  | kv :: rest, k, v =>
    if kv.1 = k then (k, v) :: rest else kv :: dictSet rest k v

/-- dict.pop(key, None): the removed value (if any) and the remaining
dict. -/
def dictPop (m : List (Option String × TranscriberInfo))
    (k : Option String) :
    Option TranscriberInfo × List (Option String × TranscriberInfo) :=
  (dictGet m k, m.filter (fun kv => decide (kv.1 ≠ k)))

/-- The empty-result sentinel stored on the failure path of
transcribe_proc: Transcription(text="", likelihood=0,
transcribe_seconds=0, wav_seconds=0). -/
def emptyTranscription : Transcription :=
  { text := "", likelihood := 0, transcribe_seconds := 0, wav_seconds := 0 }

/-- Outcome of one call of transcriber.transcribe_stream, as seen by the
worker loop: either it returns (possibly None, modelled as
Option.none), or it raises. -/
inductive DecodeOutcome where
  | ok (r : Option Transcription)
  | raise
deriving DecidableEq

/-- The assertion made by the worker loop on a decode result:
result is not None and result.text is non-empty (truthy). -/
def validResult : Option Transcription → Bool
  | some t => decide (t.text ≠ "")
  | none => false

/-- Consume queued frames up to and including the first end-of-utterance
sentinel, as the audio_stream generator of transcribe_proc does. -/
def consumeUntilSentinel : List (Option Bytes) → List (Option Bytes)
  | [] => []
  | none :: rest => rest
  | some _ :: rest => consumeUntilSentinel rest

/-- The except path of transcribe_proc: mark the worker non-reusable,
stop the engine if present, clear it, store the empty-result sentinel
and set the result signal.  Returns the new record and whether the
engine stop was invoked. -/
def transcribe_except (info : TranscriberInfo) : TranscriberInfo × Bool :=
  ({ info with reuse := false, transcriber := none,
               result := some emptyTranscription, result_event := true },
   info.transcriber.isSome)

/-- One activation cycle of the transcribe_proc loop, from the ready
wait to the point where it either loops again or exits.  Returns the
new record, whether the thread exited its loop, and whether the engine
stop was invoked.  On a normal return of transcribe_stream the queue
has been consumed through the sentinel; a raise may happen mid-stream,
so the queue is left as is on that path. -/
def transcribe_cycle (reuse_transcribers : Bool) (outcome : DecodeOutcome)
    (info : TranscriberInfo) : TranscriberInfo × Bool × Bool :=
  let info := { info with ready_event := false }
  match outcome with
  | DecodeOutcome.ok r =>
    let info := { info with frame_queue := consumeUntilSentinel info.frame_queue }
    if validResult r then
      let info := { info with result := r, result_event := true }
      if reuse_transcribers then (info, false, false) else (info, true, true)
    else
      let p := transcribe_except info
      (p.1, true, p.2)
  | DecodeOutcome.raise =>
    let p := transcribe_except info
    (p.1, true, p.2)

/-- The construction step at the top of transcribe_proc: the engine
factory either succeeds (the transcriber handle is stored and the loop
is entered) or raises (the except path runs and the thread exits).
Returns the new record, whether the thread exited, and whether the
engine stop was invoked. -/
def thread_construct (ok : Bool) (info : TranscriberInfo) :
    TranscriberInfo × Bool × Bool :=
  if ok then ({ info with transcriber := some () }, false, false)
  else
    let p := transcribe_except info
    (p.1, true, p.2)

/-- Token range accumulation loop of finish_session: range_start starts
at 0 and advances by len(token) + 1 per token; each emitted AsrToken
gets range_end = range_start + len(token) + 1 and the engine time span. -/
def buildAsrTokens_go (range_start : Nat) :
    List TranscriptionToken → List AsrToken
  | [] => []
  | t :: rest =>
    let range_end := range_start + t.token.length + 1
    { value := t.token, confidence := t.likelihood,
      range_start := range_start,
      range_end := range_start + t.token.length + 1,
      time_start := t.start_time, time_end := t.end_time }
      :: buildAsrTokens_go range_end rest

/-- The single inner token list built by finish_session from the
engine's per-word tokens. -/
def buildAsrTokens (ts : List TranscriptionToken) : List AsrToken :=
  buildAsrTokens_go 0 ts

/-- Modelled from the spec: HermesClient.to_wav_bytes, the external WAV
container writer of the transport client, modelled as the identity on
the audio payload (the claims concern the payload bytes). -/
def to_wav_bytes (audio : Bytes) : Bytes := audio

/-- Modelled from the spec: HermesClient.maybe_convert_wav, the external
normalization of a frame to the required sample rate/width/channels,
modelled as the identity on already-normalized payloads. -/
def maybe_convert_wav (wav : Bytes) : Bytes := wav

/-- Opening step of finish_session: stop silence detection and take the
trimmed audio if a recorder is attached, else take the complete audio
buffer (the source asserts it is not None there; registered sessions
always satisfy this and the model totalizes the read with []). -/
def finish_audio (info : TranscriberInfo) : TranscriberInfo × Bytes :=
  match info.recorder with
  | some r => ({ info with recorder := some r.stop.1 }, r.stop.2)
  | none => (info, info.audio_buffer.getD [])

/-- The bounded wait of finish_session on result_event, with the worker
thread behaviour as an oracle: some o means the thread completed its
pending cycle with outcome o during the wait; none means the thread did
not run during the wait (so the wait times out unless the signal was
already set). -/
def finish_wait (cfg : Config) (waitO : Option DecodeOutcome)
    (info : TranscriberInfo) : TranscriberInfo :=
  match waitO with
  | some o => (transcribe_cycle cfg.reuse_transcribers o info).1
  | none => info

/-- The transcript message finish_session builds: from the result when
one is present (with the token list when the engine returned per-word
tokens), an empty transcript otherwise; the language falls back from
the session's to the server's. -/
def finish_text_event (cfg : Config) (sl : AsrStartListening)
    (transcription : Option Transcription) (site_id : String)
    (session_id : Option String) : OutMsg :=
  let langOut := match sl.lang with
    | some l => some l
    | none => cfg.lang
  match transcription with
  | some t =>
    let asr_tokens : Option (List (List AsrToken)) :=
      if t.tokens.isEmpty then none else some [buildAsrTokens t.tokens]
    OutMsg.asrTextCaptured t.text t.likelihood t.transcribe_seconds
      site_id session_id asr_tokens langOut
  | none => OutMsg.asrTextCaptured "" 0 0 site_id session_id none langOut

/-- finish_session: publish the transcription result for a session if
not already published: take the session audio, and unless a result was
already sent, emit recording-finished, push the end-of-utterance
sentinel, wait (bounded) for the result signal marking the worker
non-reusable on timeout, emit the transcript (empty if no result), and
emit the captured audio when the start request asked for it.  The
source asserts info.start_listening is not None; registered sessions
always satisfy this and the model totalizes the read with a default. -/
def finish_session (cfg : Config) (info : TranscriberInfo)
    (site_id : String) (session_id : Option String)
    (waitO : Option DecodeOutcome) : TranscriberInfo × List OutMsg :=
  let p := finish_audio info
  let info := p.1
  let audio_data := p.2
  if info.result_sent then (info, [])
  else
    let info := { info with result_sent := true }
    let info := { info with frame_queue := info.frame_queue ++ [none] }
    let info := finish_wait cfg waitO info
    let result_success := info.result_event
    let info := if result_success then info else { info with reuse := false }
    let transcription := info.result
    let sl := info.start_listening.getD { site_id := "", session_id := none }
    let audioEvs :=
      if sl.send_audio_captured then
        [OutMsg.asrAudioCaptured (to_wav_bytes audio_data) site_id session_id]
      else []
    (info,
     OutMsg.asrRecordingFinished site_id session_id ::
       finish_text_event cfg sl transcription site_id session_id :: audioEvs)

/-- stop_listening: pop the session from the registry (no-op if
absent), finish it, and if the worker is still reusable and has an
engine, reset its session-scoped fields, drain the queue and return it
to the free pool. -/
def stop_listening (cfg : Config) (S : ServerState)
    (m : AsrStopListening) (waitO : Option DecodeOutcome) :
    ServerState × List OutMsg :=
  let p := dictPop S.sessions m.session_id
  let S := { S with sessions := p.2 }
  match p.1 with
  | none => (S, [])
  | some info =>
    let q := finish_session cfg info m.site_id m.session_id waitO
    let info := q.1
    let evs := q.2
    if info.reuse && info.transcriber.isSome then
      let info := { info with result := none, result_event := false,
                              result_sent := false, start_listening := none,
                              audio_buffer := none, frame_queue := [] }
      ({ S with free_transcribers := S.free_transcribers ++ [info] }, evs)
    else (S, evs)

/-- Session setup steps of start_listening after a worker was acquired:
store the start message, set the ready signal, and either start a
recorder (creating one from the factory only if the worker has none) or
initialize an empty audio buffer.  fresh is the recorder the factory
would produce. -/
def session_setup (info : TranscriberInfo) (m : AsrStartListening)
    (fresh : Recorder) : TranscriberInfo :=
  let info := { info with start_listening := some m, ready_event := true }
  if m.stop_on_silence then
    { info with recorder := some (info.recorder.getD fresh).start }
  else
    { info with audio_buffer := some [] }

/-- start_listening: if the session already exists run the stop
protocol for it first, then acquire a worker by popping the free pool
if non-empty, else constructing a new TranscriberInfo and launching its
thread; then set up and register the session.  The returned Bool
reports whether a new worker (with its execution thread) was
constructed.  stopW is the wait oracle for the implicit stop. -/
def start_listening (cfg : Config) (S : ServerState)
    (m : AsrStartListening) (fresh : Recorder)
    (stopW : Option DecodeOutcome) : ServerState × List OutMsg × Bool :=
  let p :=
    if (dictGet S.sessions m.session_id).isSome then
      stop_listening cfg S { site_id := m.site_id, session_id := m.session_id } stopW
    else (S, [])
  let S := p.1
  let evs := p.2
  match S.free_transcribers.getLast? with
  | some info =>
    let S := { S with free_transcribers := S.free_transcribers.dropLast }
    let info := session_setup info m fresh
    ({ S with sessions := dictSet S.sessions m.session_id info }, evs, false)
  | none =>
    let info := session_setup
      { reuse := cfg.reuse_transcribers, thread := true } m fresh
    ({ S with sessions := dictSet S.sessions m.session_id info }, evs, true)

/-- Body of the per-target try block of handle_audio_frame: assert the
session has start parameters, skip targets whose site does not match,
enqueue the frame, then either feed the recorder (finishing the session
on a detected command) or append to the audio buffer.  Any raise inside
the block yields an AsrError scoped to the frame's site and the target
session id. -/
def frame_to_session (cfg : Config) (audio_data : Bytes) (site_id : String)
    (target_id : Option String) (info : TranscriberInfo)
    (waitO : Option DecodeOutcome) : TranscriberInfo × List OutMsg :=
  match info.start_listening with
  | none => (info, [OutMsg.asrError site_id target_id])
  | some sl =>
    if sl.site_id ≠ site_id then (info, [])
    else
      let info := { info with frame_queue := info.frame_queue ++ [some audio_data] }
      match info.recorder with
      | some r =>
        match r.process_chunk audio_data with
        | Except.error _ => (info, [OutMsg.asrError site_id target_id])
        | Except.ok q =>
          let info := { info with recorder := some q.1 }
          if q.2 then finish_session cfg info site_id target_id waitO
          else (info, [])
      | none =>
        match info.audio_buffer with
        | some buf =>
          ({ info with audio_buffer := some (buf ++ audio_data) }, [])
        | none => (info, [OutMsg.asrError site_id target_id])

/-- One per-target step of the handle_audio_frame loop: the target
session object is shared with the registry (python mutates it in
place), so the step reads the current registry value under the snapshot
key, processes the frame against it, and writes the result back. -/
def frame_step (cfg : Config) (audio_data : Bytes) (site_id : String)
    (waits : Option String → Option DecodeOutcome)
    (acc : ServerState × List OutMsg)
    (kv : Option String × TranscriberInfo) : ServerState × List OutMsg :=
  match dictGet acc.1.sessions kv.1 with
  | none => acc
  | some cur =>
    let q := frame_to_session cfg audio_data site_id kv.1 cur (waits kv.1)
    ({ acc.1 with sessions := dictSet acc.1.sessions kv.1 q.1 },
     acc.2 ++ q.2)

/-- handle_audio_frame: no-op when there are no sessions; otherwise
normalize the frame, take the target snapshot (one named session, or
all sessions), and process each target in order against the current
value of its registry entry, collecting the yielded messages.  waits
gives the per-session wait oracle for silence-triggered finishes. -/
def handle_audio_frame (cfg : Config) (S : ServerState)
    (frame_wav_bytes : Bytes) (site_id : String)
    (session_id : Option String)
    (waits : Option String → Option DecodeOutcome) :
    ServerState × List OutMsg :=
  if S.sessions.isEmpty then (S, [])
  else
    let audio_data := maybe_convert_wav frame_wav_bytes
    let target_sessions :=
      match session_id with
      | none => S.sessions
      | some sid =>
        match dictGet S.sessions (some sid) with
        | some info => [(some sid, info)]
        | none => []
    target_sessions.foldl (frame_step cfg audio_data site_id waits) (S, [])

/-- One step of feeding a frame stream: route the frame to all open
sessions and append its messages. -/
def feed_step (cfg : Config) (site_id : String)
    (waits : Option String → Option DecodeOutcome)
    (acc : ServerState × List OutMsg) (f : Bytes) :
    ServerState × List OutMsg :=
  let q := handle_audio_frame cfg acc.1 f site_id none waits
  (q.1, acc.2 ++ q.2)

/-- Feed a list of frames through handle_audio_frame in order,
collecting all yielded messages. -/
def feedFrames (cfg : Config) (S : ServerState) (frames : List Bytes)
    (site_id : String) (waits : Option String → Option DecodeOutcome) :
    ServerState × List OutMsg :=
  frames.foldl (feed_step cfg site_id waits) (S, [])

/-- Apply a worker-thread state update to the session stored under a
key (the thread mutates the shared TranscriberInfo object in place). -/
def updateSession (S : ServerState) (k : Option String)
    (f : TranscriberInfo → TranscriberInfo) : ServerState :=
  let m := S.sessions.map (fun kv => if kv.1 = k then (kv.1, f kv.2) else kv)
  { S with sessions := m }

/-- A pronunciation is a phoneme sequence. -/
abbrev Pron := List String

/-- A loaded pronunciation dictionary: a python dict from word to list
of pronunciations, modelled as an insertion-ordered association list
with unique keys. -/
abbrev PronDict := List (String × List Pron)

/-- One defaultdict(list) extension step of the handle_train merge loop:
pronunciations[word].extend(word_prons). -/
def pron_extend : PronDict → String → List Pron → PronDict
  | [], w, ps => [(w, ps)]
  | kv :: rest, w, ps =>
    if kv.1 = w then (kv.1, kv.2 ++ ps) :: rest
    else kv :: pron_extend rest w ps

/-- The base dictionary merge loop of handle_train: starting from an
empty defaultdict, for each base dictionary in order and each of its
words, extend the merged entry with that dictionary's pronunciations
for the word. -/
def merge_pronunciations (dicts : List PronDict) : PronDict :=
  dicts.foldl (fun m d => d.foldl (fun m kv => pron_extend m kv.1 kv.2) m) []

/-- Pronunciations of a word in a dict, the empty list when absent. -/
def pronLookup : PronDict → String → List Pron
  | [], _ => []
  | kv :: rest, w => if kv.1 = w then kv.2 else pronLookup rest w

/-- Keys of a pronunciation dictionary. -/
def pronKeys (m : PronDict) : List String := m.map (fun kv => kv.1)

/-- Predicate for counting recording-finished messages. -/
def isRecordingFinished : OutMsg → Bool
  | OutMsg.asrRecordingFinished _ _ => true
  | _ => false

/-- Predicate for counting text-captured (transcript) messages. -/
def isTextCaptured : OutMsg → Bool
  | OutMsg.asrTextCaptured .. => true
  | _ => false

/-- Predicate for counting audio-captured messages. -/
def isAudioCaptured : OutMsg → Bool
  | OutMsg.asrAudioCaptured .. => true
  | _ => false

/-- Predicate for counting recognition-error messages. -/
def isAsrError : OutMsg → Bool
  | OutMsg.asrError _ _ => true
  | _ => false

/-- Whether a decode outcome takes the except path of the worker loop
(a raise, or a result failing the non-empty assertion). -/
def cycleFails : DecodeOutcome → Bool
  | DecodeOutcome.ok r => !validResult r
  | DecodeOutcome.raise => true

/-- Distinctness of the registry keys (python dict keys are unique). -/
def keysNodup (m : List (Option String × TranscriberInfo)) : Prop :=
  (m.map (fun kv => kv.1)).Nodup

/-- Text payload of a transcript message, none for other messages. -/
def textOf : OutMsg → Option String
  | OutMsg.asrTextCaptured t _ _ _ _ _ _ => some t
  | _ => none

/-- Configuration of the reuse trace: transcriber reuse enabled. -/
def traceCfg : Config := { reuse_transcribers := true }

/-- Reuse trace, first start message: session s1 with silence detection. -/
def traceStart1 : AsrStartListening :=
  { site_id := "kitchen", session_id := some "s1", stop_on_silence := true }

/-- Reuse trace, second start message: session s2 buffering audio and
asking for the captured clip. -/
def traceStart2 : AsrStartListening :=
  { site_id := "kitchen", session_id := some "s2", stop_on_silence := false,
    send_audio_captured := true }

/-- Reuse trace: a successful engine transcription. -/
def traceHello : Transcription :=
  { text := "hello", likelihood := 1, transcribe_seconds := 1, wav_seconds := 1 }

/-- Reuse trace: state after starting session s1 on a fresh worker. -/
def traceS1 : ServerState := (start_listening traceCfg {} traceStart1 {} none).1

/-- Reuse trace: the worker thread constructs its engine. -/
def traceS2 : ServerState :=
  updateSession traceS1 (some "s1") (fun i => (thread_construct true i).1)

/-- Reuse trace: state after stopping s1; the decode completes during
the bounded wait and the worker is returned to the free pool. -/
def traceS3 : ServerState :=
  (stop_listening traceCfg traceS2
    { site_id := "kitchen", session_id := some "s1" }
    (some (DecodeOutcome.ok (some traceHello)))).1

/-- Reuse trace: state after starting session s2, which takes the
pooled worker. -/
def traceS4 : ServerState :=
  (start_listening traceCfg traceS3 traceStart2 {} none).1

/-- Reuse trace: state after routing one audio frame to s2. -/
def traceS5 : ServerState :=
  (handle_audio_frame traceCfg traceS4 [1, 2, 3] "kitchen" none
    (fun _ => none)).1

/-- Reuse trace: the messages emitted when s2 is stopped. -/
def traceStopEvents : List OutMsg :=
  (stop_listening traceCfg traceS5
    { site_id := "kitchen", session_id := some "s2" }
    (some (DecodeOutcome.ok (some traceHello)))).2

theorem transcribe_cycle_result_sent (rt : Bool) (o : DecodeOutcome)
    (info : TranscriberInfo) :
    (transcribe_cycle rt o info).1.result_sent = info.result_sent := by
  cases o with
  | ok r =>
    by_cases hv : validResult r = true <;> by_cases hrt : rt = true <;>
      simp [transcribe_cycle, transcribe_except, hv, hrt]
  | raise => simp [transcribe_cycle, transcribe_except]

theorem transcribe_cycle_start_listening (rt : Bool) (o : DecodeOutcome)
    (info : TranscriberInfo) :
    (transcribe_cycle rt o info).1.start_listening = info.start_listening := by
  cases o with
  | ok r =>
    by_cases hv : validResult r = true <;> by_cases hrt : rt = true <;>
      simp [transcribe_cycle, transcribe_except, hv, hrt]
  | raise => simp [transcribe_cycle, transcribe_except]

theorem finish_wait_result_sent (cfg : Config) (w : Option DecodeOutcome)
    (info : TranscriberInfo) :
    (finish_wait cfg w info).result_sent = info.result_sent := by
  cases w with
  | none => simp [finish_wait]
  | some o => simp [finish_wait, transcribe_cycle_result_sent]

theorem finish_wait_start_listening (cfg : Config) (w : Option DecodeOutcome)
    (info : TranscriberInfo) :
    (finish_wait cfg w info).start_listening = info.start_listening := by
  cases w with
  | none => simp [finish_wait]
  | some o => simp [finish_wait, transcribe_cycle_start_listening]

theorem finish_audio_result_sent (info : TranscriberInfo) :
    (finish_audio info).1.result_sent = info.result_sent := by
  cases h : info.recorder <;> simp [finish_audio, h]

theorem isRecordingFinished_finish_text_event (cfg : Config)
    (sl : AsrStartListening) (tr : Option Transcription)
    (site : String) (sid : Option String) :
    isRecordingFinished (finish_text_event cfg sl tr site sid) = false := by
  cases tr <;> simp [finish_text_event, isRecordingFinished]

theorem isTextCaptured_finish_text_event (cfg : Config)
    (sl : AsrStartListening) (tr : Option Transcription)
    (site : String) (sid : Option String) :
    isTextCaptured (finish_text_event cfg sl tr site sid) = true := by
  cases tr <;> simp [finish_text_event, isTextCaptured]

theorem isAsrError_finish_text_event (cfg : Config)
    (sl : AsrStartListening) (tr : Option Transcription)
    (site : String) (sid : Option String) :
    isAsrError (finish_text_event cfg sl tr site sid) = false := by
  cases tr <;> simp [finish_text_event, isAsrError]

/-- C2: finish_session emits the recording-finished and the transcript
message at most once per session, guarded by result_sent: a first call
with result_sent unset emits exactly one of each and sets result_sent;
any call with result_sent already set emits nothing. -/
theorem c2_at_most_once_emission :
    (∀ (cfg : Config) (info : TranscriberInfo) (site : String)
        (sid : Option String) (w : Option DecodeOutcome),
        info.result_sent = false →
        (finish_session cfg info site sid w).2.countP isRecordingFinished = 1 ∧
        (finish_session cfg info site sid w).2.countP isTextCaptured = 1 ∧
        (finish_session cfg info site sid w).1.result_sent = true) ∧
    (∀ (cfg : Config) (info : TranscriberInfo) (site : String)
        (sid : Option String) (w : Option DecodeOutcome),
        info.result_sent = true →
        (finish_session cfg info site sid w).2 = [] ∧
        (finish_session cfg info site sid w).1.result_sent = true) := by
  constructor
  · intro cfg info site sid w h
    simp only [finish_session, finish_audio_result_sent, h,
      Bool.false_eq_true, if_false]
    refine ⟨?_, ?_, ?_⟩
    · repeat' split
      all_goals
        simp only [List.countP_cons, List.countP_nil,
          isRecordingFinished_finish_text_event]
      all_goals simp [isRecordingFinished]
    · repeat' split
      all_goals
        simp only [List.countP_cons, List.countP_nil,
          isTextCaptured_finish_text_event]
      all_goals simp [isTextCaptured]
    · repeat' split
      all_goals simp [finish_wait_result_sent]
  · intro cfg info site sid w h
    simp [finish_session, finish_audio_result_sent, h]

/-- Witness for c2_at_most_once_emission at a concrete session. -/
theorem c2_at_most_once_emission_witness :
    (finish_session {} { audio_buffer := some [] } "kitchen" none none).2.countP
        isRecordingFinished = 1 ∧
    (finish_session {} { result_sent := true } "kitchen" none none).2 = [] := by
  exact ⟨(c2_at_most_once_emission.1 {} { audio_buffer := some [] }
      "kitchen" none none rfl).1,
    (c2_at_most_once_emission.2 {} { result_sent := true }
      "kitchen" none none rfl).1⟩

theorem finish_audio_result_event (info : TranscriberInfo) :
    (finish_audio info).1.result_event = info.result_event := by
  cases h : info.recorder <;> simp [finish_audio, h]

theorem finish_audio_result (info : TranscriberInfo) :
    (finish_audio info).1.result = info.result := by
  cases h : info.recorder <;> simp [finish_audio, h]

theorem finish_session_timeout_reuse (cfg : Config) (info : TranscriberInfo)
    (site : String) (sid : Option String)
    (h1 : info.result_sent = false) (h2 : info.result_event = false) :
    (finish_session cfg info site sid none).1.reuse = false := by
  simp only [finish_session, finish_audio_result_sent, h1,
    Bool.false_eq_true, if_false, finish_wait]
  simp [finish_audio_result_event, h2]

theorem textOf_finish_text_event (cfg : Config) (sl : AsrStartListening)
    (tr : Option Transcription) (site : String) (sid : Option String) :
    textOf (finish_text_event cfg sl tr site sid) =
      some (match tr with | some t => t.text | none => "") := by
  cases tr <;> simp [finish_text_event, textOf]

/-- C3: when the result signal is not set within the bounded wait (the
worker does not complete during the timeout), finalize marks the worker
non-reusable yet still emits exactly one transcript built from whatever
result is present (the empty transcript when none) and no error
message; and the subsequent stop-listening step never returns such a
worker to the free pool. -/
theorem c3_timeout_degrades_not_fails :
    (∀ (cfg : Config) (info : TranscriberInfo) (site : String)
        (sid : Option String),
        info.result_sent = false → info.result_event = false →
        (finish_session cfg info site sid none).1.reuse = false ∧
        (finish_session cfg info site sid none).2.countP isTextCaptured = 1 ∧
        (finish_session cfg info site sid none).2.countP isAsrError = 0 ∧
        ((finish_session cfg info site sid none).2.get? 1).bind textOf =
          some (match info.result with | some t => t.text | none => "")) ∧
    (∀ (cfg : Config) (S : ServerState) (m : AsrStopListening)
        (info : TranscriberInfo),
        dictGet S.sessions m.session_id = some info →
        info.result_sent = false → info.result_event = false →
        (stop_listening cfg S m none).1.free_transcribers
          = S.free_transcribers) := by
  constructor
  · intro cfg info site sid h1 h2
    refine ⟨finish_session_timeout_reuse cfg info site sid h1 h2, ?_, ?_, ?_⟩
    · simp only [finish_session, finish_audio_result_sent, h1,
        Bool.false_eq_true, if_false]
      repeat' split
      all_goals
        simp only [List.countP_cons, List.countP_nil,
          isTextCaptured_finish_text_event]
      all_goals simp [isTextCaptured]
    · simp only [finish_session, finish_audio_result_sent, h1,
        Bool.false_eq_true, if_false]
      repeat' split
      all_goals
        simp only [List.countP_cons, List.countP_nil,
          isAsrError_finish_text_event]
      all_goals simp [isAsrError]
    · simp only [finish_session, finish_audio_result_sent, h1,
        Bool.false_eq_true, if_false, finish_wait]
      simp [finish_audio_result_event, h2, textOf_finish_text_event,
        finish_audio_result]
  · intro cfg S m info hget h1 h2
    have hr := finish_session_timeout_reuse cfg info m.site_id m.session_id h1 h2
    simp only [stop_listening, dictPop, hget]
    simp [hr]

/-- Witness for c3_timeout_degrades_not_fails at a concrete timed-out
session and a one-session registry. -/
theorem c3_timeout_degrades_not_fails_witness :
    (finish_session {} { audio_buffer := some [] } "kitchen" none none).1.reuse
        = false ∧
    (stop_listening {}
        { sessions := [(none, { audio_buffer := some [] })] }
        { site_id := "kitchen", session_id := none }
        none).1.free_transcribers = [] := by
  exact ⟨(c3_timeout_degrades_not_fails.1 {} { audio_buffer := some [] }
      "kitchen" none rfl rfl).1,
    c3_timeout_degrades_not_fails.2 {}
      { sessions := [(none, { audio_buffer := some [] })] }
      { site_id := "kitchen", session_id := none }
      { audio_buffer := some [] } (by simp [dictGet]) rfl rfl⟩

theorem dictGet_dictSet_self (m : List (Option String × TranscriberInfo))
    (k : Option String) (v : TranscriberInfo) :
    dictGet (dictSet m k v) k = some v := by
  induction m with
  | nil => simp [dictGet, dictSet]
  | cons kv rest ih =>
    by_cases h : kv.1 = k
    · simp [dictGet, dictSet, h]
    · simp [dictGet, dictSet, h, ih]

theorem stop_listening_pool_extends (cfg : Config) (S : ServerState)
    (m : AsrStopListening) (w : Option DecodeOutcome) :
    ∃ t, (stop_listening cfg S m w).1.free_transcribers
      = S.free_transcribers ++ t := by
  cases hget : dictGet S.sessions m.session_id with
  | none => exact ⟨[], by simp [stop_listening, dictPop, hget]⟩
  | some info =>
    simp only [stop_listening, dictPop, hget]
    split
    · exact ⟨_, rfl⟩
    · exact ⟨[], by simp⟩

theorem start_listening_created_false (cfg : Config) (S : ServerState)
    (m : AsrStartListening) (fresh : Recorder) (w : Option DecodeOutcome)
    (hne : S.free_transcribers ≠ []) :
    (start_listening cfg S m fresh w).2.2 = false := by
  simp only [start_listening]
  by_cases hif : (dictGet S.sessions m.session_id).isSome = true
  · simp only [hif, if_true]
    obtain ⟨t, ht⟩ := stop_listening_pool_extends cfg S
      { site_id := m.site_id, session_id := m.session_id } w
    cases hgl : (stop_listening cfg S
        { site_id := m.site_id, session_id := m.session_id } w).1.free_transcribers.getLast? with
    | some last => simp [hgl]
    | none =>
      exfalso
      rw [List.getLast?_eq_none_iff, ht] at hgl
      exact hne (List.append_eq_nil.mp hgl).1
  · simp only [if_neg hif]
    cases hgl : S.free_transcribers.getLast? with
    | some last => simp [hgl]
    | none =>
      exfalso
      rw [List.getLast?_eq_none_iff] at hgl
      exact hne hgl

/-- C5: start_listening drains the free-transcriber pool before
constructing: if the pool is non-empty a pooled worker is taken and no
new worker or thread is created; a new worker is created only when the
pool is empty; and with no implicit stop the taken worker is exactly
the last pool element (python list.pop). -/
theorem c5_pool_drained_before_construction :
    (∀ (cfg : Config) (S : ServerState) (m : AsrStartListening)
        (fresh : Recorder) (w : Option DecodeOutcome),
        S.free_transcribers ≠ [] →
        (start_listening cfg S m fresh w).2.2 = false) ∧
    (∀ (cfg : Config) (S : ServerState) (m : AsrStartListening)
        (fresh : Recorder) (w : Option DecodeOutcome),
        (start_listening cfg S m fresh w).2.2 = true →
        S.free_transcribers = []) ∧
    (∀ (cfg : Config) (S : ServerState) (m : AsrStartListening)
        (fresh : Recorder) (w : Option DecodeOutcome)
        (last : TranscriberInfo),
        dictGet S.sessions m.session_id = none →
        S.free_transcribers.getLast? = some last →
        (start_listening cfg S m fresh w).1.free_transcribers
          = S.free_transcribers.dropLast ∧
        dictGet (start_listening cfg S m fresh w).1.sessions m.session_id
          = some (session_setup last m fresh)) := by
  refine ⟨start_listening_created_false, ?_, ?_⟩
  · intro cfg S m fresh w hcreated
    by_contra hne
    rw [start_listening_created_false cfg S m fresh w hne] at hcreated
    exact Bool.false_ne_true hcreated
  · intro cfg S m fresh w last hget hgl
    simp [start_listening, hget, hgl, dictGet_dictSet_self]

/-- Witness for c5_pool_drained_before_construction with a one-element
pool. -/
theorem c5_pool_drained_before_construction_witness :
    (start_listening {} { free_transcribers := [{ transcriber := some () }] }
        { site_id := "kitchen", session_id := none } {} none).2.2 = false := by
  exact c5_pool_drained_before_construction.1 {}
    { free_transcribers := [{ transcriber := some () }] }
    { site_id := "kitchen", session_id := none } {} none (by simp)

theorem dictGet_dictSet_ne (m : List (Option String × TranscriberInfo))
    (k k2 : Option String) (v : TranscriberInfo) (h : k2 ≠ k) :
    dictGet (dictSet m k v) k2 = dictGet m k2 := by
  have h2 : ¬(k = k2) := fun hh => h hh.symm
  induction m with
  | nil => simp [dictGet, dictSet, h2]
  | cons kv rest ih =>
    by_cases hk : kv.1 = k
    · subst hk
      simp [dictGet, dictSet, h2]
    · simp [dictGet, dictSet, hk, ih]

theorem dictGet_mem (m : List (Option String × TranscriberInfo))
    (k : Option String) (v : TranscriberInfo)
    (h : dictGet m k = some v) : (k, v) ∈ m := by
  induction m with
  | nil => simp [dictGet] at h
  | cons kv rest ih =>
    by_cases hk : kv.1 = k
    · simp only [dictGet, if_pos hk, Option.some.injEq] at h
      have hkv : kv = (k, v) := by
        cases kv
        simp only [Prod.mk.injEq]
        exact ⟨hk, h⟩
      rw [← hkv]
      exact List.mem_cons_self kv rest
    · simp only [dictGet, if_neg hk] at h
      exact List.mem_cons_of_mem kv (ih h)

theorem dictGet_mem_nodup (m : List (Option String × TranscriberInfo))
    (k : Option String) (v : TranscriberInfo)
    (hn : keysNodup m) (h : (k, v) ∈ m) : dictGet m k = some v := by
  induction m with
  | nil => simp at h
  | cons kv rest ih =>
    rcases List.mem_cons.mp h with h1 | h1
    · rw [← h1]
      simp [dictGet]
    · have hk : kv.1 ≠ k := by
        intro he
        have hmem : k ∈ rest.map (fun kv => kv.1) := by
          have := List.mem_map_of_mem
            (fun kv : Option String × TranscriberInfo => kv.1) h1
          simpa using this
        rw [keysNodup, List.map_cons] at hn
        exact (List.nodup_cons.mp hn).1 (he ▸ hmem)
      have hn2 : keysNodup rest := by
        rw [keysNodup, List.map_cons] at hn
        exact (List.nodup_cons.mp hn).2
      simp [dictGet, hk, ih hn2 h1]

theorem frame_fold_preserves (cfg : Config) (audio : Bytes) (site : String)
    (waits : Option String → Option DecodeOutcome) :
    ∀ (targets : List (Option String × TranscriberInfo))
      (acc : ServerState × List OutMsg) (k : Option String),
      k ∉ targets.map (fun kv => kv.1) →
      dictGet (targets.foldl (frame_step cfg audio site waits) acc).1.sessions k
        = dictGet acc.1.sessions k := by
  intro targets
  induction targets with
  | nil => intro acc k h; rfl
  | cons kv rest ih =>
    intro acc k h
    have hk : k ≠ kv.1 := by
      intro he
      exact h (by simp [he])
    have hrest : k ∉ rest.map (fun kv => kv.1) := by
      intro hmem
      exact h (by simp [hmem])
    rw [List.foldl_cons, ih _ k hrest]
    cases hc : dictGet acc.1.sessions kv.1 with
    | none => simp [frame_step, hc]
    | some cur => simp [frame_step, hc, dictGet_dictSet_ne _ _ _ _ hk]

theorem frame_fold_spec (cfg : Config) (audio : Bytes) (site : String)
    (waits : Option String → Option DecodeOutcome) :
    ∀ (targets : List (Option String × TranscriberInfo))
      (S : ServerState) (evs0 : List OutMsg),
      (targets.map (fun kv => kv.1)).Nodup →
      (∀ kv ∈ targets, dictGet S.sessions kv.1 = some kv.2) →
      (targets.foldl (frame_step cfg audio site waits) (S, evs0)).2
        = evs0 ++ (targets.map (fun kv =>
            (frame_to_session cfg audio site kv.1 kv.2 (waits kv.1)).2)).flatten ∧
      ∀ kv ∈ targets,
        dictGet
            (targets.foldl (frame_step cfg audio site waits) (S, evs0)).1.sessions
            kv.1
          = some (frame_to_session cfg audio site kv.1 kv.2 (waits kv.1)).1 := by
  intro targets
  induction targets with
  | nil =>
    intro S evs0 hnd hmem
    exact ⟨by simp, by simp⟩
  | cons kv rest ih =>
    intro S evs0 hnd hmem
    have hkv : dictGet S.sessions kv.1 = some kv.2 :=
      hmem kv (List.mem_cons_self kv rest)
    have hknotin : kv.1 ∉ rest.map (fun kv => kv.1) := by
      rw [List.map_cons] at hnd
      exact (List.nodup_cons.mp hnd).1
    have hnd2 : (rest.map (fun kv => kv.1)).Nodup := by
      rw [List.map_cons] at hnd
      exact (List.nodup_cons.mp hnd).2
    set q := frame_to_session cfg audio site kv.1 kv.2 (waits kv.1) with hq
    have hmem2 : ∀ kv2 ∈ rest,
        dictGet (dictSet S.sessions kv.1 q.1) kv2.1 = some kv2.2 := by
      intro kv2 hm
      have hne : kv2.1 ≠ kv.1 := by
        intro he
        exact hknotin (he ▸ List.mem_map_of_mem (fun kv => kv.1) hm)
      rw [dictGet_dictSet_ne _ _ _ _ hne]
      exact hmem kv2 (List.mem_cons_of_mem kv hm)
    have hstep : frame_step cfg audio site waits (S, evs0) kv =
        ({ S with sessions := dictSet S.sessions kv.1 q.1 }, evs0 ++ q.2) := by
      simp [frame_step, hkv, ← hq]
    obtain ⟨h1, h2⟩ :=
      ih { S with sessions := dictSet S.sessions kv.1 q.1 } (evs0 ++ q.2)
        hnd2 hmem2
    constructor
    · rw [List.foldl_cons, hstep, h1]
      simp [← hq]
    · intro kv2 hm
      rcases List.mem_cons.mp hm with h | h
      · subst h
        rw [List.foldl_cons, hstep]
        rw [frame_fold_preserves cfg audio site waits rest _ kv2.1 hknotin]
        simp [dictGet_dictSet_self, ← hq]
      · rw [List.foldl_cons, hstep]
        exact h2 kv2 h

/-- C6: a raise while routing a frame to one target session (here the
silence detector raising on process_chunk) yields exactly one
recognition-error message scoped to the frame's site and that session's
id, and handle_audio_frame still processes every other target session
of the same frame: its output is the concatenation of each target's own
messages and each target's registry entry is updated to its own result. -/
theorem c6_per_session_error_isolation :
    (∀ (cfg : Config) (audio : Bytes) (site : String) (k : Option String)
        (info : TranscriberInfo) (w : Option DecodeOutcome)
        (sl : AsrStartListening) (r : Recorder),
        info.start_listening = some sl → sl.site_id = site →
        info.recorder = some r → r.raise_plan.headD false = true →
        frame_to_session cfg audio site k info w =
          ({ info with frame_queue := info.frame_queue ++ [some audio] },
           [OutMsg.asrError site k])) ∧
    (∀ (cfg : Config) (S : ServerState) (frame : Bytes) (site : String)
        (waits : Option String → Option DecodeOutcome),
        keysNodup S.sessions →
        (handle_audio_frame cfg S frame site none waits).2 =
          (S.sessions.map (fun kv =>
            (frame_to_session cfg (maybe_convert_wav frame) site kv.1 kv.2
              (waits kv.1)).2)).flatten ∧
        ∀ kv ∈ S.sessions,
          dictGet (handle_audio_frame cfg S frame site none waits).1.sessions
              kv.1
            = some (frame_to_session cfg (maybe_convert_wav frame) site kv.1
                kv.2 (waits kv.1)).1) := by
  constructor
  · intro cfg audio site k info w sl r h1 h2 h3 h4
    have h4' : r.raise_plan.head?.getD false = true := by simpa using h4
    simp [frame_to_session, h1, h2, h3, Recorder.process_chunk, h4']
  · intro cfg S frame site waits hnd
    by_cases hS : S.sessions.isEmpty
    · have hnil : S.sessions = [] := by
        cases hl : S.sessions
        · rfl
        · rw [hl] at hS
          simp at hS
      refine ⟨by simp [handle_audio_frame, hS, hnil], ?_⟩
      intro kv hm
      rw [hnil] at hm
      simp at hm
    · have hne : ¬(S.sessions.isEmpty = true) := by simpa using hS
      have hmem : ∀ kv ∈ S.sessions, dictGet S.sessions kv.1 = some kv.2 := by
        intro kv hm
        exact dictGet_mem_nodup _ _ _ hnd hm
      obtain ⟨h1, h2⟩ := frame_fold_spec cfg (maybe_convert_wav frame) site
        waits S.sessions S [] hnd hmem
      constructor
      · simp only [handle_audio_frame, if_neg hne]
        simpa using h1
      · intro kv hm
        simp only [handle_audio_frame, if_neg hne]
        exact h2 kv hm

/-- Witness for c6_per_session_error_isolation: two sessions on the
same site, the first session's recorder raises, the second still
receives the frame into its buffer. -/
theorem c6_per_session_error_isolation_witness :
    (handle_audio_frame {}
        { sessions :=
            [(some "a",
              { recorder := some { raise_plan := [true] },
                start_listening := some { site_id := "kitchen", session_id := some "a" } }),
             (some "b",
              { audio_buffer := some [],
                start_listening := some { site_id := "kitchen", session_id := some "b" } })] }
        [7] "kitchen" none (fun _ => none)).2
      = [OutMsg.asrError "kitchen" (some "a")] := by
  have h := (c6_per_session_error_isolation.2 {}
    { sessions :=
        [(some "a",
          { recorder := some { raise_plan := [true] },
            start_listening := some { site_id := "kitchen", session_id := some "a" } }),
         (some "b",
          { audio_buffer := some [],
            start_listening := some { site_id := "kitchen", session_id := some "b" } })] }
    [7] "kitchen" (fun _ => none) (by unfold keysNodup; decide)).1
  rw [h]
  rfl

theorem pronLookup_not_mem (m : PronDict) (w : String)
    (h : w ∉ m.map (fun kv => kv.1)) : pronLookup m w = [] := by
  induction m with
  | nil => rfl
  | cons kv rest ih =>
    have hk : kv.1 ≠ w := fun he => h (by simp [← he])
    have hr : w ∉ rest.map (fun kv => kv.1) := fun hm => h (by simp [hm])
    simp [pronLookup, hk, ih hr]

theorem pronLookup_pron_extend (m : PronDict) (w w2 : String)
    (ps : List Pron) :
    pronLookup (pron_extend m w ps) w2 =
      if w2 = w then pronLookup m w ++ ps else pronLookup m w2 := by
  induction m with
  | nil =>
    by_cases h : w2 = w
    · simp [pron_extend, pronLookup, h]
    · have h2 : ¬(w = w2) := fun he => h he.symm
      simp [pron_extend, pronLookup, h, h2]
  | cons kv rest ih =>
    by_cases hkw : kv.1 = w
    · by_cases hw : w2 = w
      · have hk2 : kv.1 = w2 := hkw.trans hw.symm
        simp [pron_extend, pronLookup, hkw, hk2, hw]
      · have hk2 : ¬(kv.1 = w2) := fun he => hw (hkw.symm.trans he).symm
        have hw2 : ¬(w = w2) := fun he => hw he.symm
        simp [pron_extend, pronLookup, hkw, hk2, hw, hw2]
    · by_cases hk2 : kv.1 = w2
      · have hw : ¬(w2 = w) := fun he => hkw (hk2.trans he)
        simp [pron_extend, pronLookup, hkw, hk2, hw]
      · simp [pron_extend, pronLookup, hkw, hk2, ih]

theorem pron_fold_dict (d : PronDict) :
    ∀ (m : PronDict), (d.map (fun kv => kv.1)).Nodup →
      ∀ (w : String),
        pronLookup (d.foldl (fun m kv => pron_extend m kv.1 kv.2) m) w
          = pronLookup m w ++ pronLookup d w := by
  induction d with
  | nil => intro m _ w; simp [pronLookup]
  | cons kv rest ih =>
    intro m hnd w
    have hknotin : kv.1 ∉ rest.map (fun kv => kv.1) := by
      rw [List.map_cons] at hnd
      exact (List.nodup_cons.mp hnd).1
    have hnd2 : (rest.map (fun kv => kv.1)).Nodup := by
      rw [List.map_cons] at hnd
      exact (List.nodup_cons.mp hnd).2
    rw [List.foldl_cons, ih (pron_extend m kv.1 kv.2) hnd2 w,
      pronLookup_pron_extend]
    by_cases hw : w = kv.1
    · have hrest : pronLookup rest w = [] := by
        refine pronLookup_not_mem rest w ?_
        rw [hw]
        exact hknotin
      rw [hw] at hrest ⊢
      simp [pronLookup, hrest]
    · have hk : ¬(kv.1 = w) := fun he => hw he.symm
      simp [pronLookup, hw, hk]

/-- C9: the handle_train merge combines base dictionaries by word as a
union of pronunciation lists: for every word the merged map holds the
concatenation, in dictionary order, of the pronunciations each base
dictionary defines for it, never just those of the last-loaded one. -/
theorem c9_dictionary_merge_is_union :
    ∀ (dicts : List PronDict),
      (∀ d ∈ dicts, (pronKeys d).Nodup) →
      ∀ (w : String),
        pronLookup (merge_pronunciations dicts) w
          = (dicts.map (fun d => pronLookup d w)).flatten := by
  have main : ∀ (dicts : List PronDict) (m : PronDict),
      (∀ d ∈ dicts, (pronKeys d).Nodup) →
      ∀ (w : String),
        pronLookup
            (dicts.foldl
              (fun m d => d.foldl (fun m kv => pron_extend m kv.1 kv.2) m) m) w
          = pronLookup m w ++ (dicts.map (fun d => pronLookup d w)).flatten := by
    intro dicts
    induction dicts with
    | nil => intro m _ w; simp
    | cons d rest ih =>
      intro m hnd w
      rw [List.foldl_cons]
      rw [ih _ (fun d2 hm => hnd d2 (List.mem_cons_of_mem d hm)) w]
      rw [pron_fold_dict d m (hnd d (List.mem_cons_self d rest)) w]
      simp
  intro dicts hnd w
  have := main dicts [] hnd w
  simpa [merge_pronunciations, pronLookup] using this

/-- Witness for c9_dictionary_merge_is_union: two base dictionaries
both defining "cat" with different pronunciations; the merged entry
holds both. -/
theorem c9_dictionary_merge_is_union_witness :
    pronLookup
        (merge_pronunciations
          [[("cat", [["K", "AE", "T"]])], [("cat", [["K", "A", "T"]])]])
        "cat"
      = [["K", "AE", "T"], ["K", "A", "T"]] := by
  rw [c9_dictionary_merge_is_union
    [[("cat", [["K", "AE", "T"]])], [("cat", [["K", "A", "T"]])]]
    (by intro d hd; fin_cases hd <;> simp [pronKeys]) "cat"]
  rfl

/-- C1 (amended): a session on a newly constructed worker satisfies the
claimed mutual exclusion of recorder and audio buffer; but
stop_listening does not clear the recorder when pooling a worker, so a
stop_on_silence = false session started on a pooled worker that still
carries a recorder has both a recorder and an audio buffer. -/
theorem c1_mutual_exclusion_amended :
    (∀ (cfg : Config) (S : ServerState) (m : AsrStartListening)
        (fresh : Recorder) (w : Option DecodeOutcome)
        (info : TranscriberInfo),
        (start_listening cfg S m fresh w).2.2 = true →
        dictGet (start_listening cfg S m fresh w).1.sessions m.session_id
          = some info →
        (m.stop_on_silence = true →
          info.recorder.isSome = true ∧ info.audio_buffer = none) ∧
        (m.stop_on_silence = false →
          info.audio_buffer = some [] ∧ info.recorder = none)) ∧
    (∀ (cfg : Config) (S : ServerState) (m : AsrStartListening)
        (fresh : Recorder) (w : Option DecodeOutcome)
        (last info : TranscriberInfo),
        dictGet S.sessions m.session_id = none →
        S.free_transcribers.getLast? = some last →
        dictGet (start_listening cfg S m fresh w).1.sessions m.session_id
          = some info →
        m.stop_on_silence = false →
        info.audio_buffer = some [] ∧ info.recorder = last.recorder) := by
  constructor
  · intro cfg S m fresh w info hcr hreg
    by_cases hif : (dictGet S.sessions m.session_id).isSome = true
    · cases hgl : (stop_listening cfg S
          { site_id := m.site_id, session_id := m.session_id }
          w).1.free_transcribers.getLast? with
      | some last =>
        exfalso
        simp [start_listening, hif, hgl] at hcr
      | none =>
        simp only [start_listening, hif, if_true, hgl,
          dictGet_dictSet_self, Option.some.injEq] at hreg
        rw [← hreg]
        constructor <;> intro hs <;> simp [session_setup, hs, Recorder.start]
    · cases hgl : S.free_transcribers.getLast? with
      | some last =>
        exfalso
        simp [start_listening, hif, hgl] at hcr
      | none =>
        simp only [start_listening, if_neg hif, hgl,
          dictGet_dictSet_self, Option.some.injEq] at hreg
        rw [← hreg]
        constructor <;> intro hs <;> simp [session_setup, hs, Recorder.start]
  · intro cfg S m fresh w last info hget hgl hreg hsos
    have hval : dictGet (start_listening cfg S m fresh w).1.sessions
        m.session_id = some (session_setup last m fresh) := by
      simp [start_listening, hget, hgl, dictGet_dictSet_self]
    rw [hval, Option.some.injEq] at hreg
    rw [← hreg]
    simp [session_setup, hsos]

/-- Witness for c1_mutual_exclusion_amended: a fresh worker with
stop_on_silence = false gets a buffer and no recorder; a pooled worker
carrying a recorder keeps it next to the new session's buffer. -/
theorem c1_mutual_exclusion_amended_witness :
    ((start_listening {} {} { site_id := "kitchen", session_id := none, stop_on_silence := false } {} none).2.2 = true ∧
      (dictGet (start_listening {} {} { site_id := "kitchen", session_id := none, stop_on_silence := false } {} none).1.sessions none).map (fun i => (i.audio_buffer, i.recorder))
        = some (some [], none)) ∧
    (dictGet (start_listening {} { free_transcribers := [{ recorder := some {} }] } { site_id := "kitchen", session_id := none, stop_on_silence := false } {} none).1.sessions none).map (fun i => (i.audio_buffer, i.recorder.isSome))
      = some (some [], true) := by
  constructor
  · have h := c1_mutual_exclusion_amended.1 {} {}
      { site_id := "kitchen", session_id := none, stop_on_silence := false }
      {} none
      (session_setup { reuse := false, thread := true } { site_id := "kitchen", session_id := none, stop_on_silence := false } {})
      rfl rfl
    refine ⟨rfl, ?_⟩
    have h2 := h.2 rfl
    rw [show dictGet (start_listening {} {} { site_id := "kitchen", session_id := none, stop_on_silence := false } {} none).1.sessions none = some (session_setup { reuse := false, thread := true } { site_id := "kitchen", session_id := none, stop_on_silence := false } {}) from rfl]
    simp [h2.1, h2.2]
  · have h := c1_mutual_exclusion_amended.2 {}
      { free_transcribers := [{ recorder := some {} }] }
      { site_id := "kitchen", session_id := none, stop_on_silence := false }
      {} none { recorder := some {} }
      (session_setup { recorder := some {} } { site_id := "kitchen", session_id := none, stop_on_silence := false } {})
      rfl rfl rfl rfl
    rw [show dictGet (start_listening {} { free_transcribers := [{ recorder := some {} }] } { site_id := "kitchen", session_id := none, stop_on_silence := false } {} none).1.sessions none = some (session_setup { recorder := some {} } { site_id := "kitchen", session_id := none, stop_on_silence := false } {}) from rfl]
    simp [h.1, h.2]

/-- C1 counterexample: in the concrete reuse trace, session s2 was
started with stop_on_silence = false on the worker pooled after the
silence session s1, and it has both a recorder and an audio buffer,
refuting the claimed mutual exclusion for pooled workers. -/
theorem c1_mutual_exclusion_counterexample :
    traceStart2.stop_on_silence = false ∧
    (dictGet traceS4.sessions (some "s2")).map
        (fun i => (i.start_listening, i.recorder.isSome, i.audio_buffer))
      = some (some traceStart2, true, some []) := by
  exact ⟨rfl, rfl⟩

/-- C7 counterexample: in the same reuse trace, one frame is routed to
the buffering session s2, yet the emitted audio-captured clip is the
leftover recorder's trimmed audio (empty) instead of the concatenation
of the routed frame bytes. -/
theorem c7_byte_for_byte_counterexample :
    traceStart2.stop_on_silence = false ∧
    traceStart2.send_audio_captured = true ∧
    (dictGet traceS5.sessions (some "s2")).map (fun i => i.frame_queue)
      = some [some (maybe_convert_wav [1, 2, 3])] ∧
    traceStopEvents.filter isAudioCaptured
      = [OutMsg.asrAudioCaptured [] "kitchen" (some "s2")] ∧
    maybe_convert_wav [1, 2, 3] ≠ [] := by
  refine ⟨rfl, rfl, rfl, rfl, by decide⟩

theorem dictSet_keys (m : List (Option String × TranscriberInfo))
    (k : Option String) (v v2 : TranscriberInfo)
    (h : dictGet m k = some v2) :
    (dictSet m k v).map (fun kv => kv.1) = m.map (fun kv => kv.1) := by
  induction m with
  | nil => simp [dictGet] at h
  | cons kv rest ih =>
    by_cases hk : kv.1 = k
    · simp [dictSet, hk]
    · simp only [dictGet, if_neg hk] at h
      simp [dictSet, hk, ih h]

theorem frame_fold_keys (cfg : Config) (audio : Bytes) (site : String)
    (waits : Option String → Option DecodeOutcome) :
    ∀ (targets : List (Option String × TranscriberInfo))
      (acc : ServerState × List OutMsg),
      ((targets.foldl (frame_step cfg audio site waits) acc).1.sessions).map
          (fun kv => kv.1)
        = (acc.1.sessions).map (fun kv => kv.1) := by
  intro targets
  induction targets with
  | nil => intro acc; rfl
  | cons kv rest ih =>
    intro acc
    rw [List.foldl_cons, ih]
    cases hc : dictGet acc.1.sessions kv.1 with
    | none => simp [frame_step, hc]
    | some cur => simp [frame_step, hc, dictSet_keys _ _ _ _ hc]

theorem handle_audio_frame_keys (cfg : Config) (S : ServerState)
    (frame : Bytes) (site : String)
    (waits : Option String → Option DecodeOutcome) :
    ((handle_audio_frame cfg S frame site none waits).1.sessions).map
        (fun kv => kv.1)
      = S.sessions.map (fun kv => kv.1) := by
  by_cases hS : S.sessions.isEmpty
  · simp [handle_audio_frame, hS]
  · have hne : ¬(S.sessions.isEmpty = true) := by simpa using hS
    simp only [handle_audio_frame, if_neg hne]
    exact frame_fold_keys cfg (maybe_convert_wav frame) site waits S.sessions
      (S, [])

theorem handle_audio_frame_buffer (cfg : Config) (S : ServerState)
    (frame : Bytes) (site : String)
    (waits : Option String → Option DecodeOutcome) (k : Option String)
    (info : TranscriberInfo) (sl : AsrStartListening) (b : Bytes)
    (hnd : keysNodup S.sessions)
    (hget : dictGet S.sessions k = some info)
    (hrec : info.recorder = none)
    (hsl : info.start_listening = some sl)
    (hsite : sl.site_id = site)
    (hbuf : info.audio_buffer = some b) :
    ∃ info2,
      dictGet (handle_audio_frame cfg S frame site none waits).1.sessions k
          = some info2 ∧
      info2.recorder = none ∧ info2.start_listening = some sl ∧
      info2.audio_buffer = some (b ++ maybe_convert_wav frame) ∧
      info2.result_sent = info.result_sent ∧
      info2.result_event = info.result_event := by
  have hmemkv : (k, info) ∈ S.sessions := dictGet_mem _ _ _ hget
  have hne : ¬(S.sessions.isEmpty = true) := by
    cases hl : S.sessions
    · rw [hl] at hmemkv
      simp at hmemkv
    · simp [hl]
  have hmem : ∀ kv ∈ S.sessions, dictGet S.sessions kv.1 = some kv.2 := by
    intro kv hm
    exact dictGet_mem_nodup _ _ _ hnd hm
  obtain ⟨h1, h2⟩ := frame_fold_spec cfg (maybe_convert_wav frame) site waits
    S.sessions S [] hnd hmem
  have hk := h2 (k, info) hmemkv
  have hfr : frame_to_session cfg (maybe_convert_wav frame) site k info
      (waits k)
      = ({ info with
            frame_queue := info.frame_queue ++ [some (maybe_convert_wav frame)],
            audio_buffer := some (b ++ maybe_convert_wav frame) }, []) := by
    simp [frame_to_session, hsl, hsite, hrec, hbuf]
  refine ⟨(frame_to_session cfg (maybe_convert_wav frame) site k info
      (waits k)).1, ?_, ?_, ?_, ?_, ?_, ?_⟩
  · simp only [handle_audio_frame, if_neg hne]
    exact hk
  all_goals simp [hfr, hsl, hrec]

theorem feed_fold_buffer (cfg : Config) (site : String)
    (waits : Option String → Option DecodeOutcome) :
    ∀ (frames : List Bytes) (acc : ServerState × List OutMsg)
      (k : Option String) (info : TranscriberInfo) (sl : AsrStartListening)
      (b : Bytes),
      keysNodup acc.1.sessions →
      dictGet acc.1.sessions k = some info →
      info.recorder = none → info.start_listening = some sl →
      sl.site_id = site → info.audio_buffer = some b →
      ∃ info2,
        dictGet ((frames.foldl (feed_step cfg site waits) acc).1.sessions) k
            = some info2 ∧
        info2.recorder = none ∧ info2.start_listening = some sl ∧
        info2.audio_buffer
          = some (b ++ (frames.map maybe_convert_wav).flatten) ∧
        info2.result_sent = info.result_sent ∧
        info2.result_event = info.result_event := by
  intro frames
  induction frames with
  | nil =>
    intro acc k info sl b hnd hget hrec hsl hsite hbuf
    exact ⟨info, hget, hrec, hsl, by simpa using hbuf, rfl, rfl⟩
  | cons f rest ih =>
    intro acc k info sl b hnd hget hrec hsl hsite hbuf
    obtain ⟨info1, hg1, hr1, hs1, hb1, hrs1, hre1⟩ :=
      handle_audio_frame_buffer cfg acc.1 f site waits k info sl b hnd hget
        hrec hsl hsite hbuf
    have hstep : (feed_step cfg site waits acc f).1
        = (handle_audio_frame cfg acc.1 f site none waits).1 := rfl
    obtain ⟨info2, hg2, hr2, hs2, hb2, hrs2, hre2⟩ :=
      ih (feed_step cfg site waits acc f) k info1 sl
        (b ++ maybe_convert_wav f)
        (by
          show (((feed_step cfg site waits acc f).1.sessions).map
            (fun kv => kv.1)).Nodup
          rw [hstep, handle_audio_frame_keys]
          exact hnd)
        (by rw [hstep]; exact hg1) hr1 hs1 hsite hb1
    refine ⟨info2, ?_, hr2, hs2, ?_, ?_, ?_⟩
    · rw [List.foldl_cons]
      exact hg2
    · rw [hb2]
      simp
    · rw [hrs2, hrs1]
    · rw [hre2, hre1]

/-- C7 (amended): for a session whose TranscriberInfo carries no
recorder (a fresh worker, as the silence-free start path intends), the
audio buffer accumulates exactly the concatenation, in arrival order,
of all format-normalized frame bytes routed to it, and finalize emits
that buffer byte-for-byte as the audio-captured clip; a pooled worker
may instead retain a recorder from an earlier stop_on_silence session,
in which case the clip is the recorder's trimmed audio (see the
counterexample). -/
theorem c7_buffer_byte_for_byte_amended :
    (∀ (cfg : Config) (S : ServerState) (frames : List Bytes) (site : String)
        (waits : Option String → Option DecodeOutcome) (k : Option String)
        (info : TranscriberInfo) (sl : AsrStartListening) (b : Bytes),
        keysNodup S.sessions →
        dictGet S.sessions k = some info →
        info.recorder = none → info.start_listening = some sl →
        sl.site_id = site → info.audio_buffer = some b →
        ∃ info2,
          dictGet (feedFrames cfg S frames site waits).1.sessions k
              = some info2 ∧
          info2.recorder = none ∧ info2.start_listening = some sl ∧
          info2.audio_buffer
            = some (b ++ (frames.map maybe_convert_wav).flatten) ∧
          info2.result_sent = info.result_sent) ∧
    (∀ (cfg : Config) (info : TranscriberInfo) (site : String)
        (sid : Option String) (w : Option DecodeOutcome)
        (sl : AsrStartListening) (b : Bytes),
        info.recorder = none → info.audio_buffer = some b →
        info.result_sent = false →
        info.start_listening = some sl → sl.send_audio_captured = true →
        (finish_session cfg info site sid w).2.getLast?
          = some (OutMsg.asrAudioCaptured (to_wav_bytes b) site sid)) := by
  constructor
  · intro cfg S frames site waits k info sl b hnd hget hrec hsl hsite hbuf
    obtain ⟨info2, h1, h2, h3, h4, h5, h6⟩ :=
      feed_fold_buffer cfg site waits frames (S, []) k info sl b hnd hget
        hrec hsl hsite hbuf
    exact ⟨info2, h1, h2, h3, h4, h5⟩
  · intro cfg info site sid w sl b hrec hbuf hrs hsl hsend
    have haudio : finish_audio info = (info, b) := by
      simp [finish_audio, hrec, hbuf]
    simp only [finish_session, haudio]
    simp only [hrs, Bool.false_eq_true, if_false]
    split <;> simp [finish_wait_start_listening, hsl, hsend]

/-- Witness for c7_buffer_byte_for_byte_amended: a recorder-free
session accumulates two routed frames into its buffer and finalize
emits exactly those bytes. -/
theorem c7_buffer_byte_for_byte_amended_witness :
    (dictGet (feedFrames {} { sessions := [(some "s", { audio_buffer := some [], start_listening := some { site_id := "kitchen", session_id := some "s", stop_on_silence := false, send_audio_captured := true } })] } [[1], [2]] "kitchen" (fun _ => none)).1.sessions (some "s")).map (fun i => i.audio_buffer)
      = some (some [1, 2]) ∧
    (finish_session {} { audio_buffer := some [1, 2], start_listening := some { site_id := "kitchen", session_id := some "s", stop_on_silence := false, send_audio_captured := true } } "kitchen" (some "s") none).2.getLast?
      = some (OutMsg.asrAudioCaptured [1, 2] "kitchen" (some "s")) := by
  constructor
  · obtain ⟨info2, h1, h2, h3, h4, h5⟩ :=
      c7_buffer_byte_for_byte_amended.1 {}
        { sessions := [(some "s", { audio_buffer := some [], start_listening := some { site_id := "kitchen", session_id := some "s", stop_on_silence := false, send_audio_captured := true } })] }
        [[1], [2]] "kitchen" (fun _ => none) (some "s")
        { audio_buffer := some [], start_listening := some { site_id := "kitchen", session_id := some "s", stop_on_silence := false, send_audio_captured := true } }
        { site_id := "kitchen", session_id := some "s", stop_on_silence := false, send_audio_captured := true }
        [] (by unfold keysNodup; decide) rfl rfl rfl rfl rfl
    simp only [h1, Option.map_some', h4]
    rfl
  · exact c7_buffer_byte_for_byte_amended.2 {}
      { audio_buffer := some [1, 2], start_listening := some { site_id := "kitchen", session_id := some "s", stop_on_silence := false, send_audio_captured := true } }
      "kitchen" (some "s") none
      { site_id := "kitchen", session_id := some "s", stop_on_silence := false, send_audio_captured := true }
      [1, 2] rfl rfl rfl rfl rfl

theorem buildAsrTokens_go_ranges (ts : List TranscriptionToken) :
    ∀ (s i : Nat) (t : TranscriptionToken), ts.get? i = some t →
      ((buildAsrTokens_go s ts).get? i).map
          (fun a => (a.range_start, a.range_end)) =
        some (s + ((ts.take i).map (fun x => x.token.length + 1)).sum,
              s + ((ts.take i).map (fun x => x.token.length + 1)).sum
                + t.token.length + 1) := by
  induction ts with
  | nil => intro s i t h; simp at h
  | cons hd rest ih =>
    intro s i t h
    cases i with
    | zero =>
      simp only [List.get?_cons_zero, Option.some.injEq] at h
      subst h
      simp [buildAsrTokens_go]
    | succ j =>
      simp only [List.get?_cons_succ] at h
      have := ih (s + hd.token.length + 1) j t h
      simp only [buildAsrTokens_go, List.get?_cons_succ, List.take_succ_cons,
        List.map_cons, List.sum_cons] at this ⊢
      rw [this]
      simp only [Option.some.injEq, Prod.mk.injEq]
      constructor <;> omega

/-- C4: when the engine returns per-word tokens, the emitted character
ranges accumulate len(word) + 1 per token from offset 0: token i starts
at the sum of (length + 1) over the preceding tokens and ends at start
+ len(token) + 1; for tokens "go" and "home" the ranges are [0,3) and
[3,8). -/
theorem c4_token_ranges :
    (∀ (ts : List TranscriptionToken) (i : Nat) (t : TranscriptionToken),
        ts.get? i = some t →
        ((buildAsrTokens ts).get? i).map
            (fun a => (a.range_start, a.range_end)) =
          some (((ts.take i).map (fun x => x.token.length + 1)).sum,
                ((ts.take i).map (fun x => x.token.length + 1)).sum
                  + t.token.length + 1)) ∧
    (buildAsrTokens
        [{ token := "go", likelihood := 1, start_time := 0, end_time := 1 },
         { token := "home", likelihood := 1, start_time := 1, end_time := 2 }]).map
      (fun a => (a.range_start, a.range_end)) = [(0, 3), (3, 8)] := by
  constructor
  · intro ts i t h
    have := buildAsrTokens_go_ranges ts 0 i t h
    simpa [buildAsrTokens] using this
  · rfl

/-- Witness for c4_token_ranges at the concrete token list. -/
theorem c4_token_ranges_witness :
    ((buildAsrTokens
        [{ token := "go", likelihood := 1, start_time := 0, end_time := 1 },
         { token := "home", likelihood := 1, start_time := 1, end_time := 2 }]).get? 1).map
      (fun a => (a.range_start, a.range_end)) = some (3, 8) := by
  rw [c4_token_ranges.1
    [{ token := "go", likelihood := 1, start_time := 0, end_time := 1 },
     { token := "home", likelihood := 1, start_time := 1, end_time := 2 }] 1
    { token := "home", likelihood := 1, start_time := 1, end_time := 2 } rfl]
  rfl

/-- C8: the worker loop sets the result signal on every exit path:
after a successful decode it stores the result and sets the signal; on
a decode failure (raise or failed non-empty assertion) or a
construction failure it marks the worker non-reusable, stops the engine
if present, stores the empty-result sentinel, sets the signal and
exits. -/
theorem c8_signal_on_every_exit :
    (∀ (rt : Bool) (o : DecodeOutcome) (info : TranscriberInfo),
        (transcribe_cycle rt o info).1.result_event = true) ∧
    (∀ (rt : Bool) (r : Option Transcription) (info : TranscriberInfo),
        validResult r = true →
        (transcribe_cycle rt (DecodeOutcome.ok r) info).1.result = r) ∧
    (∀ (rt : Bool) (o : DecodeOutcome) (info : TranscriberInfo),
        cycleFails o = true →
        (transcribe_cycle rt o info).1.reuse = false ∧
        (transcribe_cycle rt o info).1.transcriber = none ∧
        (transcribe_cycle rt o info).1.result = some emptyTranscription ∧
        (transcribe_cycle rt o info).2.2 = info.transcriber.isSome ∧
        (transcribe_cycle rt o info).2.1 = true) ∧
    (∀ (info : TranscriberInfo),
        (thread_construct false info).1.result_event = true ∧
        (thread_construct false info).1.reuse = false ∧
        (thread_construct false info).1.result = some emptyTranscription ∧
        (thread_construct false info).2.2 = info.transcriber.isSome ∧
        (thread_construct false info).2.1 = true) := by
  refine ⟨?_, ?_, ?_, ?_⟩
  · intro rt o info
    cases o with
    | ok r =>
      by_cases hv : validResult r = true
      · by_cases hrt : rt = true <;>
          simp [transcribe_cycle, transcribe_except, hv, hrt]
      · simp [transcribe_cycle, transcribe_except, hv]
    | raise => simp [transcribe_cycle, transcribe_except]
  · intro rt r info hv
    by_cases hrt : rt = true <;>
      simp [transcribe_cycle, transcribe_except, hv, hrt]
  · intro rt o info hf
    cases o with
    | ok r =>
      simp only [cycleFails, Bool.not_eq_true'] at hf
      simp [transcribe_cycle, transcribe_except, hf]
    | raise => simp [transcribe_cycle, transcribe_except]
  · intro info
    simp [thread_construct, transcribe_except]

/-- Witness for c8_signal_on_every_exit at a concrete worker record. -/
theorem c8_signal_on_every_exit_witness :
    (transcribe_cycle true DecodeOutcome.raise
        { transcriber := some () }).1.result_event = true ∧
    (transcribe_cycle true DecodeOutcome.raise
        { transcriber := some () }).1.reuse = false := by
  exact ⟨c8_signal_on_every_exit.1 true DecodeOutcome.raise
      { transcriber := some () },
    (c8_signal_on_every_exit.2.2.1 true DecodeOutcome.raise
      { transcriber := some () } rfl).1⟩

/-- C10: a null engine result or one with empty text fails the worker
loop assertion and is treated exactly like a decode failure: the worker
is marked non-reusable, the engine is stopped and cleared, the result
is replaced by the empty sentinel, the signal is set, and the loop
exits. -/
theorem c10_empty_result_retires_worker :
    ∀ (rt : Bool) (r : Option Transcription) (info : TranscriberInfo),
      (r = none ∨ ∃ t, r = some t ∧ t.text = "") →
      (transcribe_cycle rt (DecodeOutcome.ok r) info).1.reuse = false ∧
      (transcribe_cycle rt (DecodeOutcome.ok r) info).1.transcriber = none ∧
      (transcribe_cycle rt (DecodeOutcome.ok r) info).2.2
          = info.transcriber.isSome ∧
      (transcribe_cycle rt (DecodeOutcome.ok r) info).1.result
          = some emptyTranscription ∧
      (transcribe_cycle rt (DecodeOutcome.ok r) info).1.result_event = true ∧
      (transcribe_cycle rt (DecodeOutcome.ok r) info).2.1 = true := by
  intro rt r info h
  have hv : validResult r = false := by
    rcases h with h | ⟨t, ht, he⟩
    · simp [h, validResult]
    · simp [ht, validResult, he]
  simp [transcribe_cycle, transcribe_except, hv]

/-- Witness for c10_empty_result_retires_worker: an engine returning an
empty-text transcription retires the worker. -/
theorem c10_empty_result_retires_worker_witness :
    (transcribe_cycle true
        (DecodeOutcome.ok (some emptyTranscription))
        { transcriber := some () }).1.reuse = false := by
  exact (c10_empty_result_retires_worker true (some emptyTranscription)
    { transcriber := some () } (Or.inr ⟨emptyTranscription, rfl, rfl⟩)).1
